import Mathlib

/-
Shallow embedding of the QR check-in / QuickBooks billing core of the
repository: token storage (utils/token_storage.py), the monthly invoice
consolidator and check-in orchestrator (routes/checkin_routes.py), and the
manual-session variant (routes/session_routes.py).  External HTTP calls are
modelled by explicit outcome parameters; the remote QuickBooks invoice and
customer stores are modelled as lists; files are modelled as Option-valued
state passed explicitly.
-/

namespace QRBilling

/-- Calendar date, standing for the Python datetime date part. -/
structure Date where
  year : Nat
  month : Nat
  day : Nat
deriving DecidableEq, Repr

/-- Embedding of calendar.isleap from the Python standard library. -/
def isLeapYear (y : Nat) : Bool :=
  (y % 4 == 0 && y % 100 != 0) || y % 400 == 0

/-- Embedding of the day count returned by calendar.monthrange(y, m). -/
def monthLen (y m : Nat) : Nat :=
  if m = 2 then (if isLeapYear y then 29 else 28)
  else if m = 4 ∨ m = 6 ∨ m = 9 ∨ m = 11 then 30
  else 31

/-- A date is valid when its month and day lie in calendar range. -/
def Date.Valid (d : Date) : Prop :=
  1 ≤ d.month ∧ d.month ≤ 12 ∧ 1 ≤ d.day ∧ d.day ≤ monthLen d.year d.month

instance (d : Date) : Decidable d.Valid := by
  unfold Date.Valid; infer_instance

/-- Chronological comparison of dates; the zero-padded YYYY-MM-DD strings the
code builds compare lexicographically, which is exactly this order. -/
def Date.ble (a b : Date) : Bool :=
  if a.year < b.year then true
  else if a.year = b.year then
    if a.month < b.month then true
    else if a.month = b.month then decide (a.day ≤ b.day)
    else false
  else false

/-- Two dates lie in the same calendar month. -/
def sameCalendarMonth (a b : Date) : Prop :=
  a.year = b.year ∧ a.month = b.month

instance (a b : Date) : Decidable (sameCalendarMonth a b) := by
  unfold sameCalendarMonth; infer_instance

/-- the first_day string computed by find_monthly_invoice, as a date. -/
def firstDayOfMonthWindow (d : Date) : Date :=
  ⟨d.year, d.month, 1⟩

/-- the last_day string computed by find_monthly_invoice, as a date: the
code special-cases month 12 to 31 and otherwise asks calendar.monthrange. -/
def lastDayOfMonthWindow (d : Date) : Date :=
  if d.month = 12 then ⟨d.year, 12, 31⟩
  else ⟨d.year, d.month, monthLen d.year d.month⟩

/-- Contents of the persisted qb_token.json file.  Fields the Python dict may
lack are Options. -/
structure TokenData where
  accessToken : Option String
  refreshToken : Option String
  realmId : Option String
  expiresAt : Option Int
deriving DecidableEq, Repr

/-- Embedding of is_token_valid: true exactly when expires_at is more than
buffer_minutes minutes after now.  A missing token or missing expires_at is
invalid. -/
def is_token_valid (token_data : Option TokenData) (now : Int) (buffer_minutes : Int) : Bool :=
  match token_data with
  | none => false
  | some td =>
    match td.expiresAt with
    | none => false
    | some expires_at => decide (now + buffer_minutes * 60 < expires_at)

/-- Embedding of get_valid_token.  The stored file and the outcome of a
refresh attempt are parameters; the Bool records whether
refresh_access_token was invoked. -/
def get_valid_token (stored : Option TokenData) (now : Int)
    (refreshResult : Option TokenData) : Option TokenData × Bool :=
  match stored with
  | none => (none, false)
  | some token_data =>
    if is_token_valid (some token_data) now 10 then (some token_data, false)
    else (refreshResult, true)

/-- Embedding of save_token_to_file: on success the file holds exactly the
four fields plus expires_at = now + expires_in; on a write failure the state
is unchanged and False is returned. -/
def save_token_to_file (saveOk : Bool) (access_token refresh_token realm_id : Option String)
    (expires_in : Int) (now : Int) (st : Option TokenData) : Bool × Option TokenData :=
  if saveOk then (true, some ⟨access_token, refresh_token, realm_id, some (now + expires_in)⟩)
  else (false, st)

/-- Outcome of the POST to the OAuth token endpoint.  ok stands for an HTTP
200 response carrying the parsed JSON fields; httpError stands for any
non-200 status; timeout and raised stand for the two except branches. -/
inductive RefreshResponse where
  | timeout
  | httpError (status : Nat)
  | raised
  | ok (access_token : Option String) (refresh_token : Option String) (expires_in : Option Int)
deriving DecidableEq, Repr

/-- Embedding of refresh_access_token.  Returns the function result and the
token-file state after the call.  The expires_in default of 3600 mirrors
tokens.get with default. -/
def refresh_access_token (st : Option TokenData) (resp : RefreshResponse)
    (saveOk : Bool) (now : Int) : Option TokenData × Option TokenData :=
  match st with
  | none => (none, st)
  | some token_data =>
    match token_data.refreshToken with
    | none => (none, st)
    | some _ =>
      match resp with
      | .ok a r e =>
        let saved := save_token_to_file saveOk a r token_data.realmId (e.getD 3600) now st
        if saved.1 then (saved.2, saved.2) else (none, saved.2)
      | _ => (none, st)

/-- Embedding of delete_token_file: removing a present file may fail with an
exception (removeOk = false); an absent file is reported as success without
touching anything. -/
def delete_token_file (st : Option TokenData) (removeOk : Bool) : Bool × Option TokenData :=
  match st with
  | some _ => if removeOk then (true, none) else (false, st)
  | none => (true, none)

/-- Reference dict passed around as customer_ref / item_ref:
value is the QuickBooks Id, name the display name. -/
structure QBRef where
  value : String
  name : String
deriving DecidableEq, Repr

/-- A remote QuickBooks invoice as seen through the query endpoint. -/
structure Invoice where
  id : String
  syncToken : Nat
  customerRef : String
  txnDate : Date
  lineAmounts : List ℚ
  balance : ℚ
deriving DecidableEq, Repr

/-- Predicate the SQL-like query string of find_monthly_invoice evaluates
remotely: CustomerRef equals the given id, TxnDate lies in
[first_day, last_day] of the month of the check-in date, and Balance > 0. -/
def invoiceMatchesMonthlyQuery (custId : String) (checkin_date : Date) (inv : Invoice) : Bool :=
  inv.customerRef == custId
    && (Date.ble (firstDayOfMonthWindow checkin_date) inv.txnDate
        && Date.ble inv.txnDate (lastDayOfMonthWindow checkin_date))
    && decide (0 < inv.balance)

/-- Embedding of find_monthly_invoice: on a successful query it returns the
first invoice the remote store yields for the month window with positive
balance; on a failed query (non-200 or exception) it returns none. -/
def find_monthly_invoice (searchOk : Bool) (store : List Invoice)
    (customer_ref : QBRef) (checkin_date : Date) : Option Invoice :=
  if searchOk then
    (store.filter (invoiceMatchesMonthlyQuery customer_ref.value checkin_date)).head?
  else none

/-- Spec-level reading of the query filter: an open invoice of this customer
dated in the calendar month of the check-in. -/
def openInvoiceForMonth (custId : String) (checkin_date : Date) (inv : Invoice) : Prop :=
  inv.customerRef = custId ∧ sameCalendarMonth inv.txnDate checkin_date ∧ 0 < inv.balance

instance (custId : String) (checkin_date : Date) (inv : Invoice) :
    Decidable (openInvoiceForMonth custId checkin_date inv) := by
  unfold openInvoiceForMonth; infer_instance

/-- Outcome of add_line_to_invoice for the consolidator: on HTTP 200/201 the
function returns the id of the invoice it extended, else None. -/
def add_line_to_invoice (addLineOk : Bool) (existing : Invoice) : Option String :=
  if addLineOk then some existing.id else none

/-- Environment of one create_or_update_monthly_invoice call: the results of
get_valid_token and of the two find-or-create resolvers, the remote invoice
store with the query outcome, and the outcomes of the two write calls. -/
structure QBEnv where
  token : Option TokenData
  customer_ref : Option QBRef
  item_ref : Option QBRef
  searchOk : Bool
  store : List Invoice
  addLineOk : Bool
  createResult : Option String
deriving DecidableEq, Repr

/-- Which branch the consolidator took for this check-in. -/
inductive ConsolidationAction where
  | skipped
  | appended (existing : Invoice)
  | created
deriving DecidableEq, Repr

/-- Embedding of create_or_update_monthly_invoice: guards on the token and
the two resolvers, then either appends a line to the invoice found for the
month or creates a new invoice.  Returns the action taken and the invoice id
reported to the caller; every failure is caught and yields none. -/
def create_or_update_monthly_invoice (env : QBEnv) (checkin_date : Date) :
    ConsolidationAction × Option String :=
  match env.token with
  | none => (.skipped, none)
  | some token_data =>
    match token_data.accessToken with
    | none => (.skipped, none)
    | some _ =>
      match env.customer_ref with
      | none => (.skipped, none)
      | some customer_ref =>
        match env.item_ref with
        | none => (.skipped, none)
        | some _ =>
          match find_monthly_invoice env.searchOk env.store customer_ref checkin_date with
          | some existing_invoice =>
            (.appended existing_invoice, add_line_to_invoice env.addLineOk existing_invoice)
          | none => (.created, env.createResult)

/-- ASCII digit test, matching str.isdigit on the doc numbers involved. -/
def isAsciiDigit (ch : Char) : Bool :=
  decide ('0' ≤ ch) && decide (ch ≤ '9')

/-- Python str.isdigit: nonempty and all characters digits. -/
def isDigitStr (s : String) : Bool :=
  decide (0 < s.data.length) && s.data.all isAsciiDigit

/-- Numeric value of a digit string, matching int() on digit-only input. -/
def strToNat (s : String) : Nat :=
  s.data.foldl (fun acc ch => acc * 10 + (ch.toNat - 48)) 0

/-- Python str.split on a single separator character, structurally. -/
def splitOnChar (sep : Char) : List Char → List (List Char)
  | [] => [[]]
  | c :: rest =>
    match splitOnChar sep rest with
    | [] => if c = sep then [[], []] else [[c]]
    | h :: t => if c = sep then [] :: h :: t else (c :: h) :: t

/-- the parts list computed by last_doc_number.split with a dash. -/
def splitOnDash (s : String) : List String :=
  (splitOnChar '-' s.data).map (fun cs => String.mk cs)

/-- Python str.join with a dash separator. -/
def joinWithDash : List String → String
  | [] => ""
  | [s] => s
  | s :: rest => s ++ "-" ++ joinWithDash rest

/-- Python str.zfill as used to preserve leading-zero width. -/
def zfill (width : Nat) (s : String) : String :=
  String.mk (List.replicate (width - s.data.length) '0') ++ s

/-- the group matched by a trailing-digits regular expression search. -/
def trailingDigits (s : String) : String :=
  String.mk ((s.data.reverse.takeWhile isAsciiDigit).reverse)

/-- the part of the string before the trailing digits. -/
def stripTrailingDigits (s : String) : String :=
  String.mk ((s.data.reverse.dropWhile isAsciiDigit).reverse)

/-- Wall-clock instant used for the strftime fallbacks. -/
structure Timestamp where
  year : Nat
  month : Nat
  day : Nat
  hour : Nat
  minute : Nat
  second : Nat
deriving DecidableEq, Repr

/-- two-digit zero-padded strftime field. -/
def pad2 (n : Nat) : String := zfill 2 (Nat.repr n)

/-- four-digit zero-padded strftime field. -/
def pad4 (n : Nat) : String := zfill 4 (Nat.repr n)

/-- the strftime fallback string YYYYMMDD-HHMMSS used when no prior doc
number can be incremented. -/
def fallback_invoice_number (now : Timestamp) : String :=
  pad4 now.year ++ pad2 now.month ++ pad2 now.day ++ "-"
    ++ pad2 now.hour ++ pad2 now.minute ++ pad2 now.second

/-- the three increment formats tried on a truthy last DocNumber: pure
number, dash-separated numeric suffix, then any trailing digits with
zero-fill; otherwise the strftime fallback. -/
def next_number_from_doc (last_doc_number : String) (now : Timestamp) : String :=
  if isDigitStr last_doc_number then
    Nat.repr (strToNat last_doc_number + 1)
  else if last_doc_number.data.contains '-'
      && decide (2 ≤ (splitOnDash last_doc_number).length)
      && isDigitStr ((splitOnDash last_doc_number).getLastD "") then
    joinWithDash ((splitOnDash last_doc_number).dropLast)
      ++ "-" ++ Nat.repr (strToNat ((splitOnDash last_doc_number).getLastD "") + 1)
  else if trailingDigits last_doc_number ≠ "" then
    stripTrailingDigits last_doc_number
      ++ zfill (trailingDigits last_doc_number).data.length
          (Nat.repr (strToNat (trailingDigits last_doc_number) + 1))
  else
    fallback_invoice_number now

/-- Embedding of get_next_invoice_number.  queryResult is the DocNumber of
the most recent invoice when the query succeeded and returned one; none
covers the exception, non-200, no-invoice and missing-DocNumber cases, all
of which fall back to the timestamp string.  The function is total: no
input raises. -/
def get_next_invoice_number (queryResult : Option String) (now : Timestamp) : String :=
  match queryResult with
  | some last_doc_number =>
    if last_doc_number.data.length ≠ 0 then next_number_from_doc last_doc_number now
    else fallback_invoice_number now
  | none => fallback_invoice_number now

/-- Row of the customers table, fields the resolver and orchestrator use. -/
structure CustomerRow where
  id : Nat
  firstName : String
  lastName : String
  email : Option String
  phone : Option String
deriving DecidableEq, Repr

/-- Row of the session_types table. -/
structure SessionTypeRow where
  id : Nat
  name : String
  price : ℚ
deriving DecidableEq, Repr

/-- Row of the check_ins table. -/
structure CheckInRow where
  id : Nat
  customer_id : Nat
  session_type : String
  check_in_time : Date
  notes : Option String
  qb_invoice_id : Option String
  is_manual : Bool
deriving DecidableEq, Repr

/-- A customer record on the QuickBooks side. -/
structure RemoteCustomer where
  id : String
  displayName : String
deriving DecidableEq, Repr

/-- Outcome of one outbound HTTP request: an exception from requests, a
non-success status (the code accepts 200 and 201 on writes, 200 on reads),
or success with a parsed body. -/
inductive HttpOutcome where
  | raised
  | errorStatus (status : Nat)
  | success
deriving DecidableEq, Repr

/-- the customer_data JSON body sent when creating a QuickBooks customer;
None fields are stripped from the dict before sending. -/
structure CustomerPayload where
  displayName : String
  givenName : String
  familyName : String
  email : Option String
  phone : Option String
deriving DecidableEq, Repr

/-- the body find_or_create_qb_customer builds for the create call. -/
def qb_customer_payload (customer : CustomerRow) : CustomerPayload :=
  ⟨customer.firstName ++ " " ++ customer.lastName,
   customer.firstName, customer.lastName, customer.email, customer.phone⟩

/-- Embedding of find_or_create_qb_customer.  The remote store and the two
request outcomes are parameters; newId is the Id QuickBooks assigns on
creation.  An exception anywhere lands in the except branch and yields none;
a non-200 search response falls through to the create call. -/
def find_or_create_qb_customer (customer : CustomerRow) (remote : List RemoteCustomer)
    (searchOutcome createOutcome : HttpOutcome) (newId : String) : Option QBRef :=
  let customer_name := customer.firstName ++ " " ++ customer.lastName
  match searchOutcome with
  | .raised => none
  | .success =>
    match (remote.filter (fun rc => rc.displayName == customer_name)).head? with
    | some rc => some ⟨rc.id, customer_name⟩
    | none =>
      match createOutcome with
      | .raised => none
      | .success => some ⟨newId, customer_name⟩
      | .errorStatus _ => none
  | .errorStatus _ =>
    match createOutcome with
    | .raised => none
    | .success => some ⟨newId, customer_name⟩
    | .errorStatus _ => none

/-- One line of an invoice JSON body.  The item reference carries a name
only when the caller passes the full item_ref dict. -/
structure PayloadLine where
  amount : ℚ
  itemRefValue : String
  itemRefName : Option String
  qty : Nat
  unitPrice : ℚ
  description : String
deriving DecidableEq, Repr

/-- An invoice JSON body; absent JSON keys are None. -/
structure InvoicePayload where
  docNumber : Option String
  customerRefValue : String
  customerRefName : Option String
  txnDate : Date
  dueDate : Option Date
  lines : List PayloadLine
deriving DecidableEq, Repr

/-- the invoice_data body built by create_new_invoice in
routes/checkin_routes.py: one line at the service price, quantity 1, unit
price the service price, TxnDate and DueDate both the check-in date, and a
generated DocNumber. -/
def checkin_create_new_invoice_payload (invoice_number : String)
    (customer_ref item_ref : QBRef) (session_type : SessionTypeRow)
    (checkin_id : Nat) (checkin_date : Date) : InvoicePayload :=
  ⟨some invoice_number, customer_ref.value, some customer_ref.name,
   checkin_date, some checkin_date,
   [⟨session_type.price, item_ref.value, some item_ref.name, 1, session_type.price,
     session_type.name ++ " - Check-in #" ++ Nat.repr checkin_id⟩]⟩

/-- the invoice_data body built by create_new_invoice in
routes/session_routes.py: one line at the service price, TxnDate the session
date, and no DocNumber and no DueDate key at all. -/
def session_create_new_invoice_payload (qb_customer_id qb_item_id : String)
    (service : SessionTypeRow) (check_in_id : Nat) (session_date : Date) : InvoicePayload :=
  ⟨none, qb_customer_id, none, session_date, none,
   [⟨service.price, qb_item_id, none, 1, service.price,
     service.name ++ " - Check-in #" ++ Nat.repr check_in_id⟩]⟩

/-- Response of the POST check-in endpoint: the error branches and the 201
success carrying the serialized check-in and the QuickBooks invoice id. -/
inductive CheckinResponse where
  | missingFields
  | customerNotFound
  | sessionTypeNotFound
  | success (checkinId : Nat) (customerName : String) (sessionType : String)
      (checkinDate : Date) (notes : Option String) (quickbooksInvoiceId : Option String)
deriving DecidableEq, Repr

/-- Embedding of create_checkin.  customerLookup is the row found by the
extracted QR code, sessionTypeLookup the row for sessionTypeId; env drives
the billing attempt; newId is the id the insert assigns; db is the
check_ins table.  The check-in row is committed before the billing call and
its qb_invoice_id column is never written. -/
def create_checkin (qrCodeValue : Option String) (sessionTypeId : Option Nat)
    (notes : Option String) (customerLookup : Option CustomerRow)
    (sessionTypeLookup : Option SessionTypeRow) (env : QBEnv) (now : Date)
    (newId : Nat) (db : List CheckInRow) : CheckinResponse × List CheckInRow :=
  match qrCodeValue, sessionTypeId with
  | none, _ => (.missingFields, db)
  | some _, none => (.missingFields, db)
  | some _, some _ =>
    match customerLookup with
    | none => (.customerNotFound, db)
    | some customer =>
      match sessionTypeLookup with
      | none => (.sessionTypeNotFound, db)
      | some session_type =>
        let checkin : CheckInRow :=
          ⟨newId, customer.id, session_type.name, now, notes, none, false⟩
        let db2 := db ++ [checkin]
        let invoice_id := (create_or_update_monthly_invoice env now).2
        (.success newId (customer.firstName ++ " " ++ customer.lastName)
          session_type.name now notes invoice_id, db2)

/-- Response of the manual-session endpoint. -/
inductive ManualSessionResponse where
  | missingFields
  | customerNotFound
  | serviceNotFound
  | badDateFormat
  | success (check_in_id : Nat) (qb_invoice_id : Option String)
deriving DecidableEq, Repr

/-- Embedding of create_manual_session.  parsedDate is none when
strptime rejects session_date; billingResult is the value of the guarded
create_or_update_quickbooks_invoice call, with none covering both a None
return and a caught exception.  On a some result the committed row has its
qb_invoice_id column set to it. -/
def create_manual_session (customer_id service_id : Option Nat)
    (parsedDate : Option Date) (notes : String)
    (customerLookup : Option CustomerRow) (serviceLookup : Option SessionTypeRow)
    (billingResult : Option String) (newId : Nat) (db : List CheckInRow) :
    ManualSessionResponse × List CheckInRow :=
  match customer_id, service_id with
  | none, _ => (.missingFields, db)
  | some _, none => (.missingFields, db)
  | some cid, some _ =>
    match customerLookup with
    | none => (.customerNotFound, db)
    | some _ =>
      match serviceLookup with
      | none => (.serviceNotFound, db)
      | some service =>
        match parsedDate with
        | none => (.badDateFormat, db)
        | some session_datetime =>
          let check_in : CheckInRow :=
            ⟨newId, cid, service.name, session_datetime, some notes, none, true⟩
          let db2 := db ++ [check_in]
          match billingResult with
          | some qb =>
            (.success newId (some qb),
             db2.map (fun r => if r.id = newId then
               ⟨r.id, r.customer_id, r.session_type, r.check_in_time, r.notes,
                some qb, r.is_manual⟩ else r))
          | none => (.success newId none, db2)

/-- Effect on a remote invoice of the add-line update: the posted body keeps
the existing lines and appends one line at the service price, so the total
and the outstanding balance grow by that price. -/
def Invoice.addLine (inv : Invoice) (price : ℚ) : Invoice :=
  ⟨inv.id, inv.syncToken + 1, inv.customerRef, inv.txnDate,
   inv.lineAmounts ++ [price], inv.balance + price⟩

/-- the invoice the remote system records for a successful create call. -/
def new_monthly_invoice (newId : String) (custId : String) (d : Date) (price : ℚ) : Invoice :=
  ⟨newId, 0, custId, d, [price], price⟩

/-- Replace the first list element satisfying p by its image under f. -/
def updateFirst (p : Invoice → Bool) (f : Invoice → Invoice) : List Invoice → List Invoice
  | [] => []
  | inv :: rest => if p inv then f inv :: rest else inv :: updateFirst p f rest

/-- Per-step environment of one sequentially processed check-in: whether the
token and the two resolvers succeeded, whether the month query succeeded,
whether the write call succeeded, and the Id a created invoice gets. -/
structure StepEnv where
  preOk : Bool
  searchOk : Bool
  writeOk : Bool
  newId : String
deriving DecidableEq, Repr

/-- Effect of one create_or_update_monthly_invoice call on the remote
invoice store: failed steps leave it unchanged; a found month invoice gets
one more line; otherwise a new one-line invoice is created. -/
def consolidation_step (env : StepEnv) (customer_ref : QBRef) (d : Date) (price : ℚ)
    (store : List Invoice) : List Invoice :=
  if env.preOk then
    match find_monthly_invoice env.searchOk store customer_ref d with
    | some existing =>
      if env.writeOk then
        updateFirst (fun i => i.id == existing.id) (fun i => i.addLine price) store
      else store
    | none =>
      if env.writeOk then store ++ [new_monthly_invoice env.newId customer_ref.value d price]
      else store
  else store

/-- Sequential processing of a list of check-ins for one customer. -/
def consolidation_run (customer_ref : QBRef) :
    List (StepEnv × Date × ℚ) → List Invoice → List Invoice
  | [], store => store
  | (env, d, p) :: rest, store =>
    consolidation_run customer_ref rest (consolidation_step env customer_ref d p store)

/-- the invoices of one customer dated within one calendar month. -/
def monthInvoicesFor (custId : String) (m : Date) (store : List Invoice) : List Invoice :=
  store.filter (fun i => i.customerRef == custId && decide (sameCalendarMonth i.txnDate m))

/-- Disjunction of every external failure mode of one billing attempt: no
or unrefreshable token, a token record without access token, either
resolver failing, the month query finding nothing while the create call
fails, or the month query finding an invoice while the add-line call
fails. -/
def billingExternallyFailed (env : QBEnv) (checkin_date : Date) : Prop :=
  env.token = none
  ∨ (∃ td, env.token = some td ∧ td.accessToken = none)
  ∨ env.customer_ref = none
  ∨ env.item_ref = none
  ∨ (∀ cref, env.customer_ref = some cref →
      ((find_monthly_invoice env.searchOk env.store cref checkin_date = none
          ∧ env.createResult = none)
       ∨ (∃ existing,
            find_monthly_invoice env.searchOk env.store cref checkin_date = some existing
            ∧ env.addLineOk = false)))

/-- Invariant carried through sequential consolidation: at most one invoice
of this customer in this month, and every such invoice has positive balance
and a calendar-valid transaction date. -/
def ConsolidationInv (custId : String) (m : Date) (store : List Invoice) : Prop :=
  (monthInvoicesFor custId m store).length ≤ 1
  ∧ ∀ i ∈ store, i.customerRef = custId → sameCalendarMonth i.txnDate m →
      (0 < i.balance ∧ i.txnDate.Valid)

/-! ## Theorems -/

theorem lastDayOfMonthWindow_eq (d : Date) :
    lastDayOfMonthWindow d = ⟨d.year, d.month, monthLen d.year d.month⟩ := by
  rcases d with ⟨y, m, day⟩
  by_cases h : m = 12 <;> simp [lastDayOfMonthWindow, h, monthLen]

theorem Date.ble_iff (a b : Date) : a.ble b = true ↔
    (a.year < b.year ∨ (a.year = b.year ∧
      (a.month < b.month ∨ (a.month = b.month ∧ a.day ≤ b.day)))) := by
  unfold Date.ble
  split_ifs <;> simp_all

/-- Membership of a date in the calendar-month window of another date is the
same as lying in that calendar month, for calendar-valid dates. -/
theorem window_iff_sameCalendarMonth (d t : Date) (ht : t.Valid) :
    (Date.ble (firstDayOfMonthWindow d) t && Date.ble t (lastDayOfMonthWindow d)) = true
      ↔ sameCalendarMonth t d := by
  obtain ⟨hm1, hm2, hd1, hd2⟩ := ht
  rw [lastDayOfMonthWindow_eq]
  rcases d with ⟨y, m, day⟩
  rcases t with ⟨ty, tm, td⟩
  simp only [Bool.and_eq_true, Date.ble_iff, firstDayOfMonthWindow, sameCalendarMonth] at *
  constructor
  · rintro ⟨h1, h2⟩
    omega
  · rintro ⟨rfl, rfl⟩
    omega

/-- Forward direction of the window test needs no validity: the window
bounds share year and month, so the lexicographic sandwich forces them. -/
theorem window_implies_sameCalendarMonth (d t : Date)
    (h : (Date.ble (firstDayOfMonthWindow d) t && Date.ble t (lastDayOfMonthWindow d)) = true) :
    sameCalendarMonth t d := by
  rw [lastDayOfMonthWindow_eq] at h
  rcases d with ⟨y, m, day⟩
  rcases t with ⟨ty, tm, td⟩
  simp only [Bool.and_eq_true, Date.ble_iff, firstDayOfMonthWindow, sameCalendarMonth] at *
  omega

/-- For valid transaction dates, the query filter of the code and the
spec-level open-invoice predicate agree. -/
theorem invoiceMatchesMonthlyQuery_iff (custId : String) (checkin_date : Date)
    (inv : Invoice) (hv : inv.txnDate.Valid) :
    invoiceMatchesMonthlyQuery custId checkin_date inv = true
      ↔ openInvoiceForMonth custId checkin_date inv := by
  unfold invoiceMatchesMonthlyQuery openInvoiceForMonth
  rw [Bool.and_assoc]
  simp only [Bool.and_eq_true, beq_iff_eq, decide_eq_true_eq,
    window_iff_sameCalendarMonth checkin_date inv.txnDate hv]

/-- C3: is_token_valid is true exactly when expires_at lies strictly more
than 10 minutes after now; a token expiring 5 minutes from now is invalid
and makes get_valid_token attempt a refresh (returning the refresh outcome),
while one expiring 20 minutes from now is valid and returned without
refreshing. -/
theorem token_validity_buffer (td : TokenData) (now e : Int) (rr : Option TokenData)
    (h : td.expiresAt = some e) :
    (is_token_valid (some td) now 10 = true ↔ now + 600 < e)
    ∧ (e = now + 300 → get_valid_token (some td) now rr = (rr, true))
    ∧ (e = now + 1200 → get_valid_token (some td) now rr = (some td, false)) := by
  have hv : is_token_valid (some td) now 10 = decide (now + 600 < e) := by
    simp only [is_token_valid, h]
    norm_num
  refine ⟨?_, ?_, ?_⟩
  · rw [hv]; simp
  · intro he
    have hfalse : is_token_valid (some td) now 10 = false := by
      rw [hv, he]
      simp only [decide_eq_false_iff_not]
      omega
    simp [get_valid_token, hfalse]
  · intro he
    have htrue : is_token_valid (some td) now 10 = true := by
      rw [hv, he]
      simp only [decide_eq_true_eq]
      omega
    simp [get_valid_token, htrue]

/-- Witness for token_validity_buffer at a concrete token expiring at 600
seconds, seen from now = 0. -/
theorem token_validity_buffer_witness :
    (is_token_valid (some ⟨some "a", some "r", some "rm", some 600⟩) 0 10 = true
        ↔ (0 : Int) + 600 < 600)
    ∧ ((600 : Int) = 0 + 300 →
        get_valid_token (some ⟨some "a", some "r", some "rm", some 600⟩) 0 none = (none, true))
    ∧ ((600 : Int) = 0 + 1200 →
        get_valid_token (some ⟨some "a", some "r", some "rm", some 600⟩) 0 none
          = (some ⟨some "a", some "r", some "rm", some 600⟩, false)) :=
  token_validity_buffer ⟨some "a", some "r", some "rm", some 600⟩ 0 600 none rfl

/-- C10: delete_token_file returns true both when a token is stored and when
none is; afterwards no token is stored; a second call has the same result
and effect as one call; false arises only when the removal raises. -/
theorem delete_token_idempotent_total (st : Option TokenData) (removeOk : Bool) :
    (removeOk = true → delete_token_file st removeOk = (true, none))
    ∧ delete_token_file none removeOk = (true, none)
    ∧ delete_token_file (delete_token_file st removeOk).2 removeOk
        = delete_token_file st removeOk
    ∧ ((delete_token_file st removeOk).1 = false → removeOk = false ∧ st ≠ none) := by
  cases st <;> cases removeOk <;> simp [delete_token_file]

/-- Witness for delete_token_idempotent_total on a present token with a
successful removal. -/
theorem delete_token_idempotent_total_witness :
    ((true : Bool) = true →
        delete_token_file (some ⟨none, none, none, none⟩) true = (true, none))
    ∧ delete_token_file none true = (true, none)
    ∧ delete_token_file (delete_token_file (some ⟨none, none, none, none⟩) true).2 true
        = delete_token_file (some ⟨none, none, none, none⟩) true
    ∧ ((delete_token_file (some ⟨none, none, none, none⟩) true).1 = false →
        (true : Bool) = false ∧ (some (⟨none, none, none, none⟩ : TokenData)) ≠ none) :=
  delete_token_idempotent_total (some ⟨none, none, none, none⟩) true

/-- C4: when the refresh endpoint answers 200 and the write succeeds, both
new tokens are persisted together with expires_at derived from expires_in
(default 3600), and the old refresh token is gone from storage; on timeout,
non-200 or exception the result is none and the stored state is unchanged;
a failed write also persists nothing. -/
theorem refresh_rotates_tokens (td : TokenData) (oldR : String)
    (resp : RefreshResponse) (saveOk : Bool) (now : Int)
    (hr : td.refreshToken = some oldR) :
    (∀ a r e, resp = .ok a r e → saveOk = true →
      refresh_access_token (some td) resp saveOk now
        = (some ⟨a, r, td.realmId, some (now + e.getD 3600)⟩,
           some ⟨a, r, td.realmId, some (now + e.getD 3600)⟩)
      ∧ (r ≠ some oldR →
          ∀ td2, (refresh_access_token (some td) resp saveOk now).2 = some td2 →
            td2.refreshToken ≠ some oldR))
    ∧ ((∀ a r e, resp ≠ .ok a r e) →
        refresh_access_token (some td) resp saveOk now = (none, some td))
    ∧ (saveOk = false →
        refresh_access_token (some td) resp saveOk now = (none, some td)) := by
  refine ⟨?_, ?_, ?_⟩
  · rintro a r e rfl hsave
    subst hsave
    refine ⟨by simp [refresh_access_token, save_token_to_file, hr], ?_⟩
    intro hne td2 htd2
    simp [refresh_access_token, save_token_to_file, hr] at htd2
    rw [← htd2]
    simpa using hne
  · intro hnot
    cases resp with
    | ok a r e => exact absurd rfl (hnot a r e)
    | timeout => simp [refresh_access_token, hr]
    | httpError s => simp [refresh_access_token, hr]
    | raised => simp [refresh_access_token, hr]
  · intro hsave
    subst hsave
    cases resp <;> simp [refresh_access_token, save_token_to_file, hr]

/-- Witness for refresh_rotates_tokens on a stored token and a successful
200 refresh response. -/
theorem refresh_rotates_tokens_witness :
    (∀ a r e, (RefreshResponse.ok (some "na") (some "nr") (some 100)) = .ok a r e →
      (true : Bool) = true →
      refresh_access_token (some ⟨some "oa", some "old", some "rm", some 50⟩)
          (.ok (some "na") (some "nr") (some 100)) true 0
        = (some ⟨a, r, some "rm", some (0 + e.getD 3600)⟩,
           some ⟨a, r, some "rm", some (0 + e.getD 3600)⟩)
      ∧ (r ≠ some "old" →
          ∀ td2, (refresh_access_token (some ⟨some "oa", some "old", some "rm", some 50⟩)
              (.ok (some "na") (some "nr") (some 100)) true 0).2 = some td2 →
            td2.refreshToken ≠ some "old"))
    ∧ ((∀ a r e, (RefreshResponse.ok (some "na") (some "nr") (some 100)) ≠ .ok a r e) →
        refresh_access_token (some ⟨some "oa", some "old", some "rm", some 50⟩)
            (.ok (some "na") (some "nr") (some 100)) true 0
          = (none, some ⟨some "oa", some "old", some "rm", some 50⟩))
    ∧ ((true : Bool) = false →
        refresh_access_token (some ⟨some "oa", some "old", some "rm", some 50⟩)
            (.ok (some "na") (some "nr") (some 100)) true 0
          = (none, some ⟨some "oa", some "old", some "rm", some 50⟩)) :=
  refresh_rotates_tokens ⟨some "oa", some "old", some "rm", some 50⟩ "old"
    (.ok (some "na") (some "nr") (some 100)) true 0 rfl

/-- C2 counterexample: with prior document number INV-007 the code produces
INV-8, not INV-008: the dash branch drops the leading-zero width. -/
theorem invoice_number_zero_padding_lost :
    get_next_invoice_number (some "INV-007") ⟨2026, 2, 14, 9, 30, 0⟩ = "INV-8"
    ∧ get_next_invoice_number (some "INV-007") ⟨2026, 2, 14, 9, 30, 0⟩ ≠ "INV-008" := by
  refine ⟨by decide, by decide⟩

/-- splitOnChar always yields at least one part. -/
theorem splitOnChar_ne_nil (sep : Char) (cs : List Char) : splitOnChar sep cs ≠ [] := by
  cases cs with
  | nil => simp [splitOnChar]
  | cons c rest =>
    unfold splitOnChar
    cases splitOnChar sep rest <;> by_cases hc : c = sep <;> simp [hc]

/-- Splitting a separator-free list yields the single original part. -/
theorem splitOnChar_of_not_mem (sep : Char) (cs : List Char) (h : sep ∉ cs) :
    splitOnChar sep cs = [cs] := by
  induction cs with
  | nil => rfl
  | cons c rest ih =>
    have hc : ¬ c = sep := fun e => h (by rw [← e]; exact List.mem_cons_self c rest)
    have hr : sep ∉ rest := fun e => h (List.mem_cons_of_mem c e)
    unfold splitOnChar
    rw [ih hr]
    simp [hc]

/-- A one-part split result is the whole input. -/
theorem splitOnChar_eq_singleton (sep : Char) (cs h0 : List Char)
    (h : splitOnChar sep cs = [h0]) : h0 = cs := by
  induction cs generalizing h0 with
  | nil =>
    simp [splitOnChar] at h
    exact h
  | cons c rest ih =>
    unfold splitOnChar at h
    cases hr : splitOnChar sep rest with
    | nil => exact absurd hr (splitOnChar_ne_nil sep rest)
    | cons hh tt =>
      rw [hr] at h
      by_cases hc : c = sep
      · simp [hc] at h
      · simp [hc] at h
        obtain ⟨h1, h2⟩ := h
        have hrest : hh = rest := ih hh (by rw [hr, h2])
        rw [← h1, hrest]

/-- Splitting around an explicit separator whose tail is separator-free. -/
theorem splitOnChar_append_sep (sep : Char) (cs ds : List Char) (hds : sep ∉ ds) :
    splitOnChar sep (cs ++ sep :: ds) = splitOnChar sep cs ++ [ds] := by
  induction cs with
  | nil =>
    simp only [List.nil_append]
    unfold splitOnChar
    rw [splitOnChar_of_not_mem sep ds hds]
    simp
  | cons c cst ih =>
    simp only [List.cons_append]
    unfold splitOnChar
    rw [ih]
    cases hr : splitOnChar sep cst with
    | nil => exact absurd hr (splitOnChar_ne_nil sep cst)
    | cons hh tt => by_cases hc : c = sep <;> simp [hc]

/-- Strings with equal character data are equal. -/
theorem string_data_ext (a b : String) (h : a.data = b.data) : a = b := by
  cases a; cases b; simp_all

/-- Appending a dash in front of a string, at the data level. -/
theorem data_mk_append_dash (x : List Char) (y : String) :
    (String.mk x ++ "-" ++ y).data = x ++ '-' :: y.data := by
  rw [String.data_append, String.data_append]
  show (x ++ ['-']) ++ y.data = x ++ '-' :: y.data
  simp

/-- Unfolding equation of splitOnChar on a cons cell. -/
theorem splitOnChar_cons_eq (sep c : Char) (rest hh : List Char) (tt : List (List Char))
    (hr : splitOnChar sep rest = hh :: tt) :
    splitOnChar sep (c :: rest) = if c = sep then [] :: hh :: tt else (c :: hh) :: tt := by
  unfold splitOnChar
  rw [hr]

/-- joinWithDash undoes splitOnChar on a dash, at the data level. -/
theorem joinWithDash_splitOnChar_data (cs : List Char) :
    (joinWithDash ((splitOnChar '-' cs).map String.mk)).data = cs := by
  induction cs with
  | nil => rfl
  | cons c rest ih =>
    cases hr : splitOnChar '-' rest with
    | nil => exact absurd hr (splitOnChar_ne_nil '-' rest)
    | cons hh tt =>
      rw [hr] at ih
      rw [splitOnChar_cons_eq '-' c rest hh tt hr]
      by_cases hc : c = '-'
      · rw [if_pos hc]
        subst hc
        simp only [List.map_cons]
        show (String.mk [] ++ "-" ++ joinWithDash (String.mk hh :: tt.map String.mk)).data
          = '-' :: rest
        rw [data_mk_append_dash]
        simp only [List.map_cons] at ih
        rw [ih]
        rfl
      · rw [if_neg hc]
        simp only [List.map_cons]
        cases tt with
        | nil =>
          have hrest : hh = rest := splitOnChar_eq_singleton '-' rest hh hr
          subst hrest
          rfl
        | cons t0 ts =>
          show (String.mk (c :: hh) ++ "-"
              ++ joinWithDash (String.mk t0 :: ts.map String.mk)).data = c :: rest
          simp only [List.map_cons] at ih
          have ih2 : hh ++ '-' :: (joinWithDash (String.mk t0 :: ts.map String.mk)).data
              = rest := by
            rw [← ih]
            show _ = (String.mk hh ++ "-" ++ joinWithDash (String.mk t0 :: ts.map String.mk)).data
            rw [data_mk_append_dash]
          rw [data_mk_append_dash, ← ih2]
          rfl

/-- getLastD of a nonempty list ignores the default. -/
theorem getLastD_irrel_of_ne_nil (l : List (List Char)) (d1 d2 : List Char) (h : l ≠ []) :
    l.getLastD d1 = l.getLastD d2 := by
  cases l with
  | nil => exact absurd rfl h
  | cons a t => rw [List.getLastD_cons, List.getLastD_cons]

/-- the last element witnesses getLast? membership. -/
theorem mem_of_getLast?_eq (l : List Char) (c : Char) (h : l.getLast? = some c) : c ∈ l := by
  have h2 : l.reverse.head? = some c := by rw [List.head?_reverse]; exact h
  have h3 : c ∈ l.reverse := List.mem_of_mem_head? (by simp [h2])
  simpa using h3

/-- the reverse of a list with known last element starts with it. -/
theorem reverse_eq_cons_of_getLast? (l : List Char) (c : Char) (h : l.getLast? = some c) :
    ∃ rest, l.reverse = c :: rest := by
  have h2 : l.reverse.head? = some c := by rw [List.head?_reverse]; exact h
  cases hpr : l.reverse with
  | nil => rw [hpr] at h2; simp at h2
  | cons x xs =>
    rw [hpr] at h2
    simp at h2
    exact ⟨xs, by rw [h2]⟩

/-- takeWhile passes over a fully satisfying front segment. -/
theorem takeWhile_append_of_all (p : Char → Bool) (l1 l2 : List Char)
    (h : ∀ a ∈ l1, p a = true) : (l1 ++ l2).takeWhile p = l1 ++ l2.takeWhile p := by
  induction l1 with
  | nil => simp
  | cons a t ih =>
    simp only [List.cons_append, List.takeWhile_cons, h a (List.mem_cons_self a t)]
    simp [ih (fun x hx => h x (List.mem_cons_of_mem a hx))]

/-- dropWhile discards a fully satisfying front segment. -/
theorem dropWhile_append_of_all (p : Char → Bool) (l1 l2 : List Char)
    (h : ∀ a ∈ l1, p a = true) : (l1 ++ l2).dropWhile p = l2.dropWhile p := by
  induction l1 with
  | nil => simp
  | cons a t ih =>
    simp only [List.cons_append, List.dropWhile_cons, h a (List.mem_cons_self a t)]
    simp [ih (fun x hx => h x (List.mem_cons_of_mem a hx))]

/-- When the input ends in a non-digit, the last dash-separated component is
not all digits. -/
theorem isDigitStr_splitOnChar_getLast (cs : List Char) (c : Char)
    (hlast : cs.getLast? = some c) (hc : isAsciiDigit c = false) :
    isDigitStr (String.mk ((splitOnChar '-' cs).getLastD [])) = false := by
  induction cs with
  | nil => simp at hlast
  | cons a rest ih =>
    cases rest with
    | nil =>
      simp at hlast
      subst hlast
      rw [splitOnChar_cons_eq '-' a [] [] [] rfl]
      by_cases ha : a = '-'
      · rw [if_pos ha]
        simp [isDigitStr, List.getLastD]
      · rw [if_neg ha]
        simp [List.getLastD, isDigitStr, hc]
    | cons r0 rs =>
      have hlast2 := hlast
      rw [List.getLast?_cons_cons] at hlast2
      have ihr := ih hlast2
      cases hr : splitOnChar '-' (r0 :: rs) with
      | nil => exact absurd hr (splitOnChar_ne_nil '-' (r0 :: rs))
      | cons hh tt =>
        rw [hr] at ihr
        rw [splitOnChar_cons_eq '-' a (r0 :: rs) hh tt hr]
        by_cases ha : a = '-'
        · rw [if_pos ha, List.getLastD_cons]
          exact ihr
        · rw [if_neg ha]
          cases tt with
          | nil =>
            have hrest : hh = r0 :: rs := splitOnChar_eq_singleton '-' (r0 :: rs) hh hr
            subst hrest
            have hcmem : c ∈ a :: r0 :: rs := mem_of_getLast?_eq _ _ hlast
            unfold isDigitStr
            have hall : (String.mk (([(a :: r0 :: rs)]).getLastD [])).data.all isAsciiDigit
                = false := by
              rw [List.all_eq_false]
              exact ⟨c, by simpa [List.getLastD] using hcmem, by simp [hc]⟩
            rw [hall]
            simp
          | cons t0 ts =>
            rw [List.getLastD_cons]
            rw [List.getLastD_cons] at ihr
            rw [getLastD_irrel_of_ne_nil (t0 :: ts) (a :: hh) hh (by simp)]
            exact ihr

/-- the last part of splitOnDash is the String.mk of the last raw part. -/
theorem splitOnDash_getLastD_eq (s : String) :
    (splitOnDash s).getLastD "" = String.mk ((splitOnChar '-' s.data).getLastD []) := by
  unfold splitOnDash
  rw [List.getLastD_eq_getLast?, List.getLastD_eq_getLast?, List.getLast?_map]
  cases hgl : (splitOnChar '-' s.data).getLast? with
  | none => rfl
  | some x => rfl

/-- Unfolding equation of get_next_invoice_number on a present doc number. -/
theorem get_next_invoice_number_some (s : String) (now : Timestamp) :
    get_next_invoice_number (some s) now
      = if s.data.length ≠ 0 then next_number_from_doc s now
        else fallback_invoice_number now := rfl

/-- the dash branch in general: for any leading part and any numeric
suffix, the suffix after the last dash is incremented through int, so the
result never carries the leading zeros of the suffix. -/
theorem get_next_dash_suffix (now : Timestamp) (pre suf : String)
    (hsuf : isDigitStr suf = true) :
    get_next_invoice_number (some (pre ++ "-" ++ suf)) now
      = pre ++ "-" ++ Nat.repr (strToNat suf + 1) := by
  have hdata : (pre ++ "-" ++ suf).data = pre.data ++ '-' :: suf.data := by
    rw [String.data_append, String.data_append]
    show (pre.data ++ ['-']) ++ suf.data = pre.data ++ '-' :: suf.data
    simp
  have hsufall : suf.data.all isAsciiDigit = true := by
    unfold isDigitStr at hsuf
    exact ((Bool.and_eq_true _ _).mp hsuf).2
  have hnd : '-' ∉ suf.data := by
    intro hmem
    exact absurd (List.all_eq_true.mp hsufall '-' hmem) (by decide)
  have hsplit : splitOnDash (pre ++ "-" ++ suf) = splitOnDash pre ++ [suf] := by
    unfold splitOnDash
    rw [hdata, splitOnChar_append_sep '-' pre.data suf.data hnd, List.map_append]
    rfl
  have hlen0 : (pre ++ "-" ++ suf).data.length ≠ 0 := by
    rw [hdata]
    simp
  have hnotdig : isDigitStr (pre ++ "-" ++ suf) = false := by
    unfold isDigitStr
    have hall : (pre ++ "-" ++ suf).data.all isAsciiDigit = false := by
      rw [List.all_eq_false]
      refine ⟨'-', ?_, by decide⟩
      rw [hdata]
      simp
    rw [hall]
    simp
  have hlast : (splitOnDash (pre ++ "-" ++ suf)).getLastD "" = suf := by
    rw [hsplit]
    exact List.getLastD_concat _ _ _
  have hlen2 : (2 : Nat) ≤ (splitOnDash (pre ++ "-" ++ suf)).length := by
    rw [hsplit, List.length_append]
    have h1 : splitOnDash pre ≠ [] := by
      unfold splitOnDash
      simp [splitOnChar_ne_nil]
    have h2 : 0 < (splitOnDash pre).length := List.length_pos.mpr h1
    simp only [List.length_singleton]
    omega
  have hcont : (pre ++ "-" ++ suf).data.contains '-' = true := by
    rw [hdata]
    simp
  have hjoin : joinWithDash ((splitOnDash (pre ++ "-" ++ suf)).dropLast) = pre := by
    rw [hsplit, List.dropLast_concat]
    exact string_data_ext _ _ (joinWithDash_splitOnChar_data pre.data)
  rw [get_next_invoice_number_some, if_pos hlen0]
  unfold next_number_from_doc
  rw [if_neg (by simp [hnotdig]), if_pos (by rw [hcont, hlast, hsuf]; simp [hlen2]),
    hjoin, hlast]

/-- the trailing-digits branch in general: with no dash anywhere and a stem
ending in a non-digit, the trailing digit run is incremented and
zero-filled back to its original width. -/
theorem get_next_trailing_digits (now : Timestamp) (pre suf : String)
    (hdash : '-' ∉ pre.data)
    (hlastc : ∃ c, pre.data.getLast? = some c ∧ isAsciiDigit c = false)
    (hsuf : isDigitStr suf = true) :
    get_next_invoice_number (some (pre ++ suf)) now
      = pre ++ zfill suf.data.length (Nat.repr (strToNat suf + 1)) := by
  obtain ⟨c, hcl, hcd⟩ := hlastc
  have hdata : (pre ++ suf).data = pre.data ++ suf.data := String.data_append _ _
  have hsufall : suf.data.all isAsciiDigit = true := by
    unfold isDigitStr at hsuf
    exact ((Bool.and_eq_true _ _).mp hsuf).2
  have hsufne : suf.data ≠ [] := by
    unfold isDigitStr at hsuf
    have h1 := ((Bool.and_eq_true _ _).mp hsuf).1
    simp only [decide_eq_true_eq] at h1
    intro h0
    rw [h0] at h1
    simp at h1
  have hnd2 : '-' ∉ suf.data := by
    intro hmem
    exact absurd (List.all_eq_true.mp hsufall '-' hmem) (by decide)
  have hcmem : c ∈ pre.data := mem_of_getLast?_eq _ _ hcl
  have hnotdig : isDigitStr (pre ++ suf) = false := by
    unfold isDigitStr
    have hall : (pre ++ suf).data.all isAsciiDigit = false := by
      rw [List.all_eq_false]
      refine ⟨c, ?_, by simp [hcd]⟩
      rw [hdata]
      exact List.mem_append_left _ hcmem
    rw [hall]
    simp
  have hnds : '-' ∉ (pre ++ suf).data := by
    rw [hdata]
    intro hmem
    rcases List.mem_append.mp hmem with h | h
    · exact hdash h
    · exact hnd2 h
  have hsplit1 : splitOnDash (pre ++ suf) = [pre ++ suf] := by
    unfold splitOnDash
    rw [splitOnChar_of_not_mem '-' _ hnds]
    rfl
  have hguard2 : isDigitStr ((splitOnDash (pre ++ suf)).getLastD "") = false := by
    rw [hsplit1, List.getLastD_cons]
    exact hnotdig
  have hrev : (pre ++ suf).data.reverse = suf.data.reverse ++ pre.data.reverse := by
    rw [hdata, List.reverse_append]
  obtain ⟨rest, hpr⟩ := reverse_eq_cons_of_getLast? pre.data c hcl
  have hsufrev : ∀ a ∈ suf.data.reverse, isAsciiDigit a = true := by
    intro a ha
    exact List.all_eq_true.mp hsufall a (List.mem_reverse.mp ha)
  have htake : (pre ++ suf).data.reverse.takeWhile isAsciiDigit = suf.data.reverse := by
    rw [hrev, takeWhile_append_of_all _ _ _ hsufrev, hpr, List.takeWhile_cons]
    simp [hcd]
  have hdrop2 : (pre ++ suf).data.reverse.dropWhile isAsciiDigit = pre.data.reverse := by
    rw [hrev, dropWhile_append_of_all _ _ _ hsufrev, hpr, List.dropWhile_cons]
    simp [hcd]
  have htrail : trailingDigits (pre ++ suf) = suf := by
    unfold trailingDigits
    rw [htake, List.reverse_reverse]
  have hstrip : stripTrailingDigits (pre ++ suf) = pre := by
    unfold stripTrailingDigits
    rw [hdrop2, List.reverse_reverse]
  have hlen0 : (pre ++ suf).data.length ≠ 0 := by
    rw [hdata, List.length_append]
    intro h0
    have h1 : suf.data.length = 0 := by omega
    exact hsufne (List.length_eq_zero.mp h1)
  have htne : trailingDigits (pre ++ suf) ≠ "" := by
    rw [htrail]
    intro h0
    exact hsufne (congrArg String.data h0)
  have hguardfull : ((pre ++ suf).data.contains '-'
      && decide (2 ≤ (splitOnDash (pre ++ suf)).length)
      && isDigitStr ((splitOnDash (pre ++ suf)).getLastD "")) = false := by
    rw [hguard2, Bool.and_false]
  rw [get_next_invoice_number_some, if_pos hlen0]
  unfold next_number_from_doc
  rw [if_neg (by simp [hnotdig]), if_neg (by rw [hguardfull]; simp), if_pos htne, hstrip, htrail]

/-- a doc number with no numeric suffix falls through to the strftime
fallback. -/
theorem get_next_no_numeric_suffix (now : Timestamp) (s : String)
    (h : s.data.getLast? = none ∨ ∃ c, s.data.getLast? = some c ∧ isAsciiDigit c = false) :
    get_next_invoice_number (some s) now = fallback_invoice_number now := by
  rcases h with h | ⟨c, hcl, hcd⟩
  · have h0 : s.data = [] := List.getLast?_eq_none_iff.mp h
    rw [get_next_invoice_number_some, if_neg (by simp [h0])]
  · have hne : s.data ≠ [] := by
      intro h0
      rw [h0] at hcl
      simp at hcl
    have hlen0 : s.data.length ≠ 0 := by
      intro h0
      exact hne (List.length_eq_zero.mp h0)
    have hcmem : c ∈ s.data := mem_of_getLast?_eq _ _ hcl
    have hnotdig : isDigitStr s = false := by
      unfold isDigitStr
      have hall : s.data.all isAsciiDigit = false := by
        rw [List.all_eq_false]
        exact ⟨c, hcmem, by simp [hcd]⟩
      rw [hall]
      simp
    have hguard3 : isDigitStr ((splitOnDash s).getLastD "") = false := by
      rw [splitOnDash_getLastD_eq]
      exact isDigitStr_splitOnChar_getLast s.data c hcl hcd
    have htrail0 : trailingDigits s = "" := by
      unfold trailingDigits
      obtain ⟨rest, hpr⟩ := reverse_eq_cons_of_getLast? s.data c hcl
      rw [hpr, List.takeWhile_cons]
      simp [hcd]
    have hguardfull : (s.data.contains '-'
        && decide (2 ≤ (splitOnDash s).length)
        && isDigitStr ((splitOnDash s).getLastD "")) = false := by
      rw [hguard3, Bool.and_false]
    rw [get_next_invoice_number_some, if_pos hlen0]
    unfold next_number_from_doc
    rw [if_neg (by simp [hnotdig]), if_neg (by rw [hguardfull]; simp), if_neg (by simp [htrail0])]

/-- C2 amended: every purely numeric prior number is incremented; every
dash-suffix number has its numeric suffix incremented without preserving
its leading-zero width (INV-007 gives INV-8); every trailing numeric suffix
not preceded by a dash keeps its zero-filled width (INV007 gives INV008);
with no prior invoice, or a prior number with no numeric suffix, the result
is the strftime fallback; the function is total. -/
theorem invoice_number_generation (now : Timestamp) :
    (∀ s, isDigitStr s = true →
        get_next_invoice_number (some s) now = Nat.repr (strToNat s + 1))
    ∧ (∀ pre suf, isDigitStr suf = true →
        get_next_invoice_number (some (pre ++ "-" ++ suf)) now
          = pre ++ "-" ++ Nat.repr (strToNat suf + 1))
    ∧ (∀ pre suf, '-' ∉ pre.data →
        (∃ c, pre.data.getLast? = some c ∧ isAsciiDigit c = false) →
        isDigitStr suf = true →
        get_next_invoice_number (some (pre ++ suf)) now
          = pre ++ zfill suf.data.length (Nat.repr (strToNat suf + 1)))
    ∧ (∀ s, (s.data.getLast? = none
          ∨ ∃ c, s.data.getLast? = some c ∧ isAsciiDigit c = false) →
        get_next_invoice_number (some s) now = fallback_invoice_number now)
    ∧ get_next_invoice_number none now = fallback_invoice_number now
    ∧ get_next_invoice_number (some "42") now = "43"
    ∧ get_next_invoice_number (some "INV-007") now = "INV-8"
    ∧ get_next_invoice_number (some "INV007") now = "INV008" := by
  refine ⟨?_, fun pre suf h => get_next_dash_suffix now pre suf h,
    fun pre suf h1 h2 h3 => get_next_trailing_digits now pre suf h1 h2 h3,
    fun s h => get_next_no_numeric_suffix now s h, rfl, rfl, rfl, rfl⟩
  intro s h
  have hne : s.data.length ≠ 0 := by
    unfold isDigitStr at h
    simp only [Bool.and_eq_true, decide_eq_true_eq] at h
    omega
  have hne2 : s.length ≠ 0 := hne
  unfold get_next_invoice_number next_number_from_doc
  simp [hne, hne2, h]

/-- Witness for invoice_number_generation at a concrete timestamp,
exercising the numeric, dash, trailing-digits and no-suffix clauses. -/
theorem invoice_number_generation_witness :
    (isDigitStr "42" = true
      ∧ get_next_invoice_number (some "42") ⟨2026, 2, 14, 9, 30, 0⟩
          = Nat.repr (strToNat "42" + 1))
    ∧ (isDigitStr "007" = true
      ∧ get_next_invoice_number (some ("INV" ++ "-" ++ "007")) ⟨2026, 2, 14, 9, 30, 0⟩
          = "INV" ++ "-" ++ Nat.repr (strToNat "007" + 1))
    ∧ get_next_invoice_number (some ("INV" ++ "007")) ⟨2026, 2, 14, 9, 30, 0⟩
        = "INV" ++ zfill "007".data.length (Nat.repr (strToNat "007" + 1))
    ∧ get_next_invoice_number (some "ABC") ⟨2026, 2, 14, 9, 30, 0⟩
        = fallback_invoice_number ⟨2026, 2, 14, 9, 30, 0⟩ :=
  ⟨⟨by decide, (invoice_number_generation ⟨2026, 2, 14, 9, 30, 0⟩).1 "42" (by decide)⟩,
   ⟨by decide,
    (invoice_number_generation ⟨2026, 2, 14, 9, 30, 0⟩).2.1 "INV" "007" (by decide)⟩,
   (invoice_number_generation ⟨2026, 2, 14, 9, 30, 0⟩).2.2.1 "INV" "007" (by decide)
     ⟨'V', by decide, by decide⟩ (by decide),
   (invoice_number_generation ⟨2026, 2, 14, 9, 30, 0⟩).2.2.2.1 "ABC"
     (Or.inr ⟨'C', by decide, by decide⟩)⟩

/-- C6 counterexample: the manual-session invoice body carries no DueDate
key, so its due date is not the check-in date. -/
theorem session_invoice_missing_due_date :
    (session_create_new_invoice_payload "17" "3" ⟨1, "Piano Lesson", 35⟩ 9 ⟨2024, 3, 5⟩).dueDate
      = none
    ∧ (session_create_new_invoice_payload "17" "3" ⟨1, "Piano Lesson", 35⟩ 9 ⟨2024, 3, 5⟩).dueDate
      ≠ some ⟨2024, 3, 5⟩ := by
  refine ⟨rfl, by decide⟩

/-- C6 amended: both creation paths build exactly one line with amount,
unit price the service price and quantity 1, and transaction date the
check-in date; the QR route also sets DueDate to the check-in date, while
the manual-session route leaves the due date unset. -/
theorem invoice_creation_shape (invoice_number : String) (customer_ref item_ref : QBRef)
    (session_type : SessionTypeRow) (checkin_id : Nat) (d : Date)
    (qb_customer_id qb_item_id : String) :
    (checkin_create_new_invoice_payload invoice_number customer_ref item_ref
        session_type checkin_id d).lines.length = 1
    ∧ (∀ L ∈ (checkin_create_new_invoice_payload invoice_number customer_ref item_ref
        session_type checkin_id d).lines,
        L.amount = session_type.price ∧ L.qty = 1 ∧ L.unitPrice = session_type.price)
    ∧ (checkin_create_new_invoice_payload invoice_number customer_ref item_ref
        session_type checkin_id d).txnDate = d
    ∧ (checkin_create_new_invoice_payload invoice_number customer_ref item_ref
        session_type checkin_id d).dueDate = some d
    ∧ (session_create_new_invoice_payload qb_customer_id qb_item_id
        session_type checkin_id d).lines.length = 1
    ∧ (∀ L ∈ (session_create_new_invoice_payload qb_customer_id qb_item_id
        session_type checkin_id d).lines,
        L.amount = session_type.price ∧ L.qty = 1 ∧ L.unitPrice = session_type.price)
    ∧ (session_create_new_invoice_payload qb_customer_id qb_item_id
        session_type checkin_id d).txnDate = d
    ∧ (session_create_new_invoice_payload qb_customer_id qb_item_id
        session_type checkin_id d).dueDate = none := by
  simp [checkin_create_new_invoice_payload, session_create_new_invoice_payload]

/-- C8 counterexample: when the display-name search request errors with a
500 the resolver does not return none: it falls through to creation and
returns the freshly created reference, even though a matching remote
customer existed. -/
theorem resolver_search_error_still_creates :
    find_or_create_qb_customer ⟨7, "Jane", "Doe", none, none⟩ [⟨"44", "Jane Doe"⟩]
      (.errorStatus 500) .success "99" = some ⟨"99", "Jane Doe"⟩
    ∧ find_or_create_qb_customer ⟨7, "Jane", "Doe", none, none⟩ [⟨"44", "Jane Doe"⟩]
      (.errorStatus 500) .success "99" ≠ none := by
  refine ⟨by decide, by decide⟩

/-- C8 amended: on a successful search the resolver returns the first
remote customer whose display name equals firstName-space-lastName; with no
match it creates a customer whose body carries that name and the local
email and phone, returning the new reference; it returns none when a
request raises or the creation call fails; a search request error is
treated as not-found and falls through to creation. -/
theorem resolver_find_or_create (customer : CustomerRow) (remote : List RemoteCustomer)
    (createOutcome : HttpOutcome) (newId : String) :
    (∀ rc, (remote.filter (fun x =>
          x.displayName == customer.firstName ++ " " ++ customer.lastName)).head? = some rc →
        find_or_create_qb_customer customer remote .success createOutcome newId
          = some ⟨rc.id, customer.firstName ++ " " ++ customer.lastName⟩)
    ∧ ((remote.filter (fun x =>
          x.displayName == customer.firstName ++ " " ++ customer.lastName)).head? = none →
        find_or_create_qb_customer customer remote .success createOutcome newId
          = (if createOutcome = .success
             then some ⟨newId, customer.firstName ++ " " ++ customer.lastName⟩
             else none))
    ∧ (∀ so, find_or_create_qb_customer customer remote .raised so newId = none)
    ∧ (∀ s, find_or_create_qb_customer customer remote (.errorStatus s) createOutcome newId
        = (if createOutcome = .success
           then some ⟨newId, customer.firstName ++ " " ++ customer.lastName⟩
           else none))
    ∧ qb_customer_payload customer
        = ⟨customer.firstName ++ " " ++ customer.lastName, customer.firstName,
           customer.lastName, customer.email, customer.phone⟩ := by
  refine ⟨?_, ?_, ?_, ?_, rfl⟩
  · intro rc hrc
    simp [find_or_create_qb_customer, hrc]
  · intro hnone
    cases createOutcome <;> simp [find_or_create_qb_customer, hnone]
  · intro so
    simp [find_or_create_qb_customer]
  · intro s
    cases createOutcome <;> simp [find_or_create_qb_customer]

/-- Witness for resolver_find_or_create on a concrete customer with one
matching remote record and a successful create outcome. -/
theorem resolver_find_or_create_witness :
    ((List.filter (fun x =>
          x.displayName == "Jane" ++ " " ++ "Doe") [(⟨"44", "Jane Doe"⟩ : RemoteCustomer)]).head?
        = some ⟨"44", "Jane Doe"⟩)
    ∧ find_or_create_qb_customer ⟨7, "Jane", "Doe", none, none⟩ [⟨"44", "Jane Doe"⟩]
        .success .success "99" = some ⟨"44", "Jane" ++ " " ++ "Doe"⟩ :=
  ⟨by decide,
   (resolver_find_or_create ⟨7, "Jane", "Doe", none, none⟩ [⟨"44", "Jane Doe"⟩]
      .success "99").1 ⟨"44", "Jane Doe"⟩ (by decide)⟩

/-- Every external failure mode makes the consolidator report none. -/
theorem billing_failure_yields_none (env : QBEnv) (checkin_date : Date)
    (h : billingExternallyFailed env checkin_date) :
    (create_or_update_monthly_invoice env checkin_date).2 = none := by
  rcases henv : env.token with _ | td
  · simp [create_or_update_monthly_invoice, henv]
  rcases hacc : td.accessToken with _ | a
  · simp [create_or_update_monthly_invoice, henv, hacc]
  rcases hcref : env.customer_ref with _ | cref
  · simp [create_or_update_monthly_invoice, henv, hacc, hcref]
  rcases hitem : env.item_ref with _ | iref
  · simp [create_or_update_monthly_invoice, henv, hacc, hcref, hitem]
  rcases h with h | ⟨td2, htd2, ha2⟩ | h | h | h5
  · rw [henv] at h; exact absurd h (by simp)
  · rw [henv] at htd2
    injection htd2 with htd2
    rw [htd2] at hacc
    rw [ha2] at hacc
    exact absurd hacc (by simp)
  · rw [hcref] at h; exact absurd h (by simp)
  · rw [hitem] at h; exact absurd h (by simp)
  · rcases h5 cref hcref with ⟨hfind, hcreate⟩ | ⟨existing, hfind, hadd⟩
    · simp [create_or_update_monthly_invoice, henv, hacc, hcref, hitem, hfind, hcreate]
    · simp [create_or_update_monthly_invoice, henv, hacc, hcref, hitem, hfind,
        add_line_to_invoice, hadd]

/-- C5: for a valid check-in request the row is committed regardless of the
billing environment, and under every external billing failure mode the
endpoint still answers success with the check-in and a null invoice id; no
failure propagates. -/
theorem billing_failure_never_blocks_attendance (qr : String) (stid : Nat)
    (notes : Option String) (customer : CustomerRow) (session_type : SessionTypeRow)
    (now : Date) (newId : Nat) (db : List CheckInRow) :
    (∀ env : QBEnv,
      (create_checkin (some qr) (some stid) notes (some customer) (some session_type)
          env now newId db).2
        = db ++ [⟨newId, customer.id, session_type.name, now, notes, none, false⟩])
    ∧ (∀ env : QBEnv, billingExternallyFailed env now →
      create_checkin (some qr) (some stid) notes (some customer) (some session_type)
          env now newId db
        = (.success newId (customer.firstName ++ " " ++ customer.lastName)
             session_type.name now notes none,
           db ++ [⟨newId, customer.id, session_type.name, now, notes, none, false⟩])) := by
  constructor
  · intro env; rfl
  · intro env h
    have hnone := billing_failure_yields_none env now h
    simp [create_checkin, hnone]

/-- Witness for billing_failure_never_blocks_attendance: a concrete valid
request processed under an environment with no stored token. -/
theorem billing_failure_never_blocks_attendance_witness :
    (∀ env : QBEnv,
      (create_checkin (some "qr-1") (some 3) none (some ⟨7, "Jane", "Doe", none, none⟩)
          (some ⟨3, "Piano Lesson", 35⟩) env ⟨2024, 3, 5⟩ 11 []).2
        = [] ++ [⟨11, 7, "Piano Lesson", ⟨2024, 3, 5⟩, none, none, false⟩])
    ∧ (∀ env : QBEnv, billingExternallyFailed env ⟨2024, 3, 5⟩ →
      create_checkin (some "qr-1") (some 3) none (some ⟨7, "Jane", "Doe", none, none⟩)
          (some ⟨3, "Piano Lesson", 35⟩) env ⟨2024, 3, 5⟩ 11 []
        = (.success 11 ("Jane" ++ " " ++ "Doe") "Piano Lesson" ⟨2024, 3, 5⟩ none none,
           [] ++ [⟨11, 7, "Piano Lesson", ⟨2024, 3, 5⟩, none, none, false⟩])) :=
  billing_failure_never_blocks_attendance "qr-1" 3 none ⟨7, "Jane", "Doe", none, none⟩
    ⟨3, "Piano Lesson", 35⟩ ⟨2024, 3, 5⟩ 11 []

/-- C7 counterexample: a QR check-in whose billing completes (the response
carries invoice id 555) still stores its row with a null qb_invoice_id. -/
theorem checkin_route_never_persists_invoice_id :
    (create_checkin (some "qr-1") (some 3) none (some ⟨7, "Jane", "Doe", none, none⟩)
        (some ⟨3, "Piano Lesson", 35⟩)
        ⟨some ⟨some "at", some "rt", some "rm", some 99999⟩, some ⟨"7", "Jane Doe"⟩,
         some ⟨"3", "Piano Lesson"⟩, true, [], true, some "555"⟩
        ⟨2024, 3, 5⟩ 11 []).1
      = .success 11 "Jane Doe" "Piano Lesson" ⟨2024, 3, 5⟩ none (some "555")
    ∧ (∀ r ∈ (create_checkin (some "qr-1") (some 3) none (some ⟨7, "Jane", "Doe", none, none⟩)
        (some ⟨3, "Piano Lesson", 35⟩)
        ⟨some ⟨some "at", some "rt", some "rm", some 99999⟩, some ⟨"7", "Jane Doe"⟩,
         some ⟨"3", "Piano Lesson"⟩, true, [], true, some "555"⟩
        ⟨2024, 3, 5⟩ 11 []).2, r.qb_invoice_id = none) := by
  refine ⟨by decide, by decide⟩

/-- C7 amended: the manual-session route persists the obtained invoice id
onto the committed row when billing completes, while the QR check-in route
always commits its row with a null qb_invoice_id and reports the id only in
the response body. -/
theorem invoice_id_persistence_by_route (cid sid : Nat) (pd : Date) (notes : String)
    (customer : CustomerRow) (service : SessionTypeRow) (qb : String)
    (newId : Nat) (db : List CheckInRow)
    (hfresh : ∀ r ∈ db, r.id ≠ newId) :
    (create_manual_session (some cid) (some sid) (some pd) notes (some customer)
        (some service) (some qb) newId db).2
      = db ++ [⟨newId, cid, service.name, pd, some notes, some qb, true⟩]
    ∧ (∀ (env : QBEnv) (qr : String) (stid nid : Nat) (notes2 : Option String)
        (c2 : CustomerRow) (st2 : SessionTypeRow) (now : Date) (db2 : List CheckInRow),
        (create_checkin (some qr) (some stid) notes2 (some c2) (some st2)
            env now nid db2).2
          = db2 ++ [⟨nid, c2.id, st2.name, now, notes2, none, false⟩]) := by
  constructor
  · have hred : (create_manual_session (some cid) (some sid) (some pd) notes (some customer)
        (some service) (some qb) newId db).2
      = (db ++ [(⟨newId, cid, service.name, pd, some notes, none, true⟩ : CheckInRow)]).map
          (fun r : CheckInRow => if r.id = newId then
            (⟨r.id, r.customer_id, r.session_type, r.check_in_time, r.notes,
              some qb, r.is_manual⟩ : CheckInRow) else r) := rfl
    rw [hred, List.map_append]
    congr 1
    · conv_rhs => rw [← List.map_id db]
      apply List.map_congr_left
      intro r hr
      simp [hfresh r hr]
    · simp
  · intro env qr stid nid notes2 c2 st2 now db2
    rfl

/-- Witness for invoice_id_persistence_by_route on an empty table and a
completed billing with invoice id 555. -/
theorem invoice_id_persistence_by_route_witness :
    ((create_manual_session (some 7) (some 3) (some ⟨2024, 3, 5⟩) "n"
        (some ⟨7, "Jane", "Doe", none, none⟩) (some ⟨3, "Piano Lesson", 35⟩)
        (some "555") 11 []).2
      = [] ++ [⟨11, 7, "Piano Lesson", ⟨2024, 3, 5⟩, some "n", some "555", true⟩])
    ∧ (∀ (env : QBEnv) (qr : String) (stid nid : Nat) (notes2 : Option String)
        (c2 : CustomerRow) (st2 : SessionTypeRow) (now : Date) (db2 : List CheckInRow),
        (create_checkin (some qr) (some stid) notes2 (some c2) (some st2)
            env now nid db2).2
          = db2 ++ [⟨nid, c2.id, st2.name, now, notes2, none, false⟩]) :=
  invoice_id_persistence_by_route 7 3 ⟨2024, 3, 5⟩ "n" ⟨7, "Jane", "Doe", none, none⟩
    ⟨3, "Piano Lesson", 35⟩ "555" 11 [] (by simp)

/-- C1: with a usable token and both references resolved, the consolidator
queries for this customer's invoices dated in the calendar-month window of
the check-in with positive balance; when the query yields a first match it
appends a line to exactly that invoice, otherwise it creates a new invoice;
it never does both for one check-in. -/
theorem monthly_consolidation_decision_rule (env : QBEnv) (d : Date) (cref : QBRef)
    (htok : ∃ td a, env.token = some td ∧ td.accessToken = some a)
    (hcref : env.customer_ref = some cref)
    (hitem : env.item_ref ≠ none)
    (hsearch : env.searchOk = true)
    (hvalid : ∀ inv ∈ env.store, inv.txnDate.Valid) :
    (∀ existing,
        (env.store.filter (fun i => decide (openInvoiceForMonth cref.value d i))).head?
          = some existing →
        create_or_update_monthly_invoice env d
          = (.appended existing, add_line_to_invoice env.addLineOk existing))
    ∧ ((env.store.filter (fun i => decide (openInvoiceForMonth cref.value d i))).head? = none →
        create_or_update_monthly_invoice env d = (.created, env.createResult))
    ∧ (∀ existing, ¬((create_or_update_monthly_invoice env d).1 = .appended existing
        ∧ (create_or_update_monthly_invoice env d).1 = .created)) := by
  obtain ⟨td, a, htd, ha⟩ := htok
  rcases hiref : env.item_ref with _ | iref
  · exact absurd hiref hitem
  have hfilter : env.store.filter (invoiceMatchesMonthlyQuery cref.value d)
      = env.store.filter (fun i => decide (openInvoiceForMonth cref.value d i)) := by
    apply List.filter_congr
    intro x hx
    rw [Bool.eq_iff_iff]
    simp only [decide_eq_true_eq]
    exact invoiceMatchesMonthlyQuery_iff cref.value d x (hvalid x hx)
  have hfind : find_monthly_invoice env.searchOk env.store cref d
      = (env.store.filter (fun i => decide (openInvoiceForMonth cref.value d i))).head? := by
    unfold find_monthly_invoice
    rw [hsearch, hfilter]
    simp
  refine ⟨?_, ?_, ?_⟩
  · intro existing hex
    have hsome : find_monthly_invoice env.searchOk env.store cref d = some existing := by
      rw [hfind, hex]
    simp [create_or_update_monthly_invoice, htd, ha, hcref, hiref, hsome]
  · intro hnone
    have hn : find_monthly_invoice env.searchOk env.store cref d = none := by
      rw [hfind, hnone]
    simp [create_or_update_monthly_invoice, htd, ha, hcref, hiref, hn]
  · rintro existing ⟨h1, h2⟩
    rw [h1] at h2
    exact ConsolidationAction.noConfusion h2

/-- Witness for monthly_consolidation_decision_rule on a concrete
environment holding one open March invoice for the customer. -/
theorem monthly_consolidation_decision_rule_witness :
    (∀ existing,
        (List.filter (fun i => decide (openInvoiceForMonth "7" ⟨2024, 3, 20⟩ i))
            [(⟨"10", 0, "7", ⟨2024, 3, 5⟩, [35], 35⟩ : Invoice)]).head?
          = some existing →
        create_or_update_monthly_invoice
            ⟨some ⟨some "at", some "rt", some "rm", some 0⟩, some ⟨"7", "Jane Doe"⟩,
             some ⟨"3", "Piano Lesson"⟩, true,
             [⟨"10", 0, "7", ⟨2024, 3, 5⟩, [35], 35⟩], true, none⟩ ⟨2024, 3, 20⟩
          = (.appended existing, add_line_to_invoice true existing))
    ∧ ((List.filter (fun i => decide (openInvoiceForMonth "7" ⟨2024, 3, 20⟩ i))
            [(⟨"10", 0, "7", ⟨2024, 3, 5⟩, [35], 35⟩ : Invoice)]).head? = none →
        create_or_update_monthly_invoice
            ⟨some ⟨some "at", some "rt", some "rm", some 0⟩, some ⟨"7", "Jane Doe"⟩,
             some ⟨"3", "Piano Lesson"⟩, true,
             [⟨"10", 0, "7", ⟨2024, 3, 5⟩, [35], 35⟩], true, none⟩ ⟨2024, 3, 20⟩
          = (.created, none))
    ∧ (∀ existing, ¬((create_or_update_monthly_invoice
            ⟨some ⟨some "at", some "rt", some "rm", some 0⟩, some ⟨"7", "Jane Doe"⟩,
             some ⟨"3", "Piano Lesson"⟩, true,
             [⟨"10", 0, "7", ⟨2024, 3, 5⟩, [35], 35⟩], true, none⟩ ⟨2024, 3, 20⟩).1
          = .appended existing
        ∧ (create_or_update_monthly_invoice
            ⟨some ⟨some "at", some "rt", some "rm", some 0⟩, some ⟨"7", "Jane Doe"⟩,
             some ⟨"3", "Piano Lesson"⟩, true,
             [⟨"10", 0, "7", ⟨2024, 3, 5⟩, [35], 35⟩], true, none⟩ ⟨2024, 3, 20⟩).1
          = .created)) :=
  monthly_consolidation_decision_rule
    ⟨some ⟨some "at", some "rt", some "rm", some 0⟩, some ⟨"7", "Jane Doe"⟩,
     some ⟨"3", "Piano Lesson"⟩, true,
     [⟨"10", 0, "7", ⟨2024, 3, 5⟩, [35], 35⟩], true, none⟩ ⟨2024, 3, 20⟩
    ⟨"7", "Jane Doe"⟩
    ⟨⟨some "at", some "rt", some "rm", some 0⟩, "at", rfl, rfl⟩
    rfl (by simp) rfl (by decide)

/-- Every element of updateFirst p f l is an element of l or the image
under f of an element of l. -/
theorem mem_updateFirst (p : Invoice → Bool) (f : Invoice → Invoice) (l : List Invoice)
    (y : Invoice) (hy : y ∈ updateFirst p f l) : y ∈ l ∨ ∃ x ∈ l, y = f x := by
  induction l with
  | nil => simp [updateFirst] at hy
  | cons a t ih =>
    unfold updateFirst at hy
    cases hpa : p a
    · rw [hpa] at hy
      simp only [Bool.false_eq_true, if_false] at hy
      rcases List.mem_cons.mp hy with h | h
      · exact Or.inl (h ▸ List.mem_cons_self a t)
      · rcases ih h with h2 | ⟨x, hx, hfx⟩
        · exact Or.inl (List.mem_cons_of_mem a h2)
        · exact Or.inr ⟨x, List.mem_cons_of_mem a hx, hfx⟩
    · rw [hpa] at hy
      simp only [if_true] at hy
      rcases List.mem_cons.mp hy with h | h
      · exact Or.inr ⟨a, List.mem_cons_self a t, h⟩
      · exact Or.inl (List.mem_cons_of_mem a h)

/-- When f preserves a filter predicate q, updateFirst preserves the length
of the q-filtered list. -/
theorem filter_updateFirst_length (q p : Invoice → Bool) (f : Invoice → Invoice)
    (hf : ∀ i, q (f i) = q i) (l : List Invoice) :
    ((updateFirst p f l).filter q).length = (l.filter q).length := by
  induction l with
  | nil => rfl
  | cons a t ih =>
    unfold updateFirst
    cases hpa : p a
    · simp only [Bool.false_eq_true, if_false, List.filter_cons]
      cases hqa : q a <;> simp [hqa, ih]
    · simp only [if_true, List.filter_cons, hf a]
      cases hqa : q a <;> simp [hqa]

/-- A first filtered element is a member satisfying the filter. -/
theorem head?_filter_some (q : Invoice → Bool) (l : List Invoice) (x : Invoice)
    (h : (l.filter q).head? = some x) : x ∈ l ∧ q x = true := by
  have hx : x ∈ l.filter q := List.mem_of_mem_head? (by simp [h])
  exact ⟨List.mem_of_mem_filter hx, List.of_mem_filter hx⟩

/-- One sequentially processed check-in with a successful month query and a
positive price preserves the consolidation invariant. -/
theorem consolidation_step_preserves (env : StepEnv) (cref : QBRef) (m d : Date)
    (price : ℚ) (store : List Invoice)
    (hsearch : env.searchOk = true) (hd : d.Valid) (hdm : sameCalendarMonth d m)
    (hp : 0 < price) (hinv : ConsolidationInv cref.value m store) :
    ConsolidationInv cref.value m (consolidation_step env cref d price store) := by
  obtain ⟨hlen, hbal⟩ := hinv
  unfold consolidation_step
  cases hpre : env.preOk
  · simpa using ⟨hlen, hbal⟩
  simp only [if_true]
  cases hfound : find_monthly_invoice env.searchOk store cref d with
  | some existing =>
    cases hw : env.writeOk
    · simpa using ⟨hlen, hbal⟩
    simp only [if_true]
    constructor
    · unfold monthInvoicesFor at hlen ⊢
      rw [filter_updateFirst_length
        (fun i => i.customerRef == cref.value && decide (sameCalendarMonth i.txnDate m))
        (fun i => i.id == existing.id)
        (fun i => i.addLine price) (fun i => rfl)]
      exact hlen
    · intro i hi hc hsm
      rcases mem_updateFirst _ _ _ _ hi with hmem | ⟨x, hx, rfl⟩
      · exact hbal i hmem hc hsm
      · obtain ⟨hb, hv⟩ := hbal x hx hc hsm
        exact ⟨add_pos hb hp, hv⟩
  | none =>
    cases hw : env.writeOk
    · simpa using ⟨hlen, hbal⟩
    simp only [if_true]
    have hq_nil : store.filter (invoiceMatchesMonthlyQuery cref.value d) = [] := by
      unfold find_monthly_invoice at hfound
      rw [hsearch] at hfound
      simpa [List.head?_eq_none_iff] using hfound
    have hm_nil : monthInvoicesFor cref.value m store = [] := by
      unfold monthInvoicesFor
      rw [List.filter_eq_nil_iff]
      intro i hi hmB
      simp only [Bool.and_eq_true, beq_iff_eq, decide_eq_true_eq] at hmB
      obtain ⟨hb, hv⟩ := hbal i hi hmB.1 hmB.2
      have hq : invoiceMatchesMonthlyQuery cref.value d i = true := by
        rw [invoiceMatchesMonthlyQuery_iff _ _ _ hv]
        exact ⟨hmB.1, ⟨hmB.2.1.trans hdm.1.symm, hmB.2.2.trans hdm.2.symm⟩, hb⟩
      have hmem : i ∈ store.filter (invoiceMatchesMonthlyQuery cref.value d) :=
        List.mem_filter.mpr ⟨hi, hq⟩
      rw [hq_nil] at hmem
      simp at hmem
    constructor
    · obtain ⟨hy, hmo⟩ := hdm
      unfold monthInvoicesFor at hm_nil ⊢
      rw [List.filter_append, hm_nil]
      simp [new_monthly_invoice, sameCalendarMonth, hy, hmo]
    · intro i hi hc hsm
      rcases List.mem_append.mp hi with h | h
      · exact hbal i h hc hsm
      · simp only [List.mem_singleton] at h
        subst h
        exact ⟨hp, hd⟩

/-- Sequential runs of check-ins with successful queries and positive
prices preserve the consolidation invariant. -/
theorem consolidation_run_preserves (cref : QBRef) (m : Date)
    (steps : List (StepEnv × Date × ℚ)) :
    ∀ store : List Invoice,
    (∀ s ∈ steps, s.1.searchOk = true ∧ s.2.1.Valid
        ∧ sameCalendarMonth s.2.1 m ∧ 0 < s.2.2) →
    ConsolidationInv cref.value m store →
    ConsolidationInv cref.value m (consolidation_run cref steps store) := by
  induction steps with
  | nil => intro store _ h; exact h
  | cons s rest ih =>
    intro store hsteps hinv
    obtain ⟨e, d, p⟩ := s
    have hs := hsteps (e, d, p) (List.mem_cons_self _ _)
    exact ih _ (fun s2 hs2 => hsteps s2 (List.mem_cons_of_mem _ hs2))
      (consolidation_step_preserves e cref m d p store hs.1 hs.2.1 hs.2.2.1 hs.2.2.2 hinv)

/-- C9 counterexample: two sequential, fully successful check-ins for one
customer in March 2024 with a zero-price service (the seed data ships
0.00-priced services) leave two invoices for that customer in that month:
the first invoice has balance 0, so the positive-balance month query skips
it and the second check-in creates another invoice. -/
theorem zero_price_checkins_duplicate_invoices :
    monthInvoicesFor "7" ⟨2024, 3, 1⟩ ([] : List Invoice) = []
    ∧ (monthInvoicesFor "7" ⟨2024, 3, 1⟩
        (consolidation_run ⟨"7", "Jane Doe"⟩
          [(⟨true, true, true, "101"⟩, ⟨2024, 3, 5⟩, 0),
           (⟨true, true, true, "102"⟩, ⟨2024, 3, 20⟩, 0)] [])).length = 2 := by
  refine ⟨rfl, by decide⟩

/-- C9 amended: starting from a state with no invoice for the customer in
the month, any sequence of sequentially processed check-ins for that
customer within that month leaves at most one invoice for the customer
dated within the month, provided each processed check-in has a positive
price and a successful month query (failed steps may leave the store
unchanged; zero-price check-ins or failed queries can duplicate). -/
theorem idempotent_monthly_consolidation (cref : QBRef) (m : Date)
    (steps : List (StepEnv × Date × ℚ)) (store : List Invoice)
    (hsteps : ∀ s ∈ steps, s.1.searchOk = true ∧ s.2.1.Valid
        ∧ sameCalendarMonth s.2.1 m ∧ 0 < s.2.2)
    (hstart : monthInvoicesFor cref.value m store = []) :
    (monthInvoicesFor cref.value m (consolidation_run cref steps store)).length ≤ 1 := by
  have hinv : ConsolidationInv cref.value m store := by
    constructor
    · rw [hstart]; simp
    · intro i hi hc hsm
      exfalso
      have hmem : i ∈ monthInvoicesFor cref.value m store :=
        List.mem_filter.mpr ⟨hi, by simp [hc, hsm]⟩
      rw [hstart] at hmem
      simp at hmem
  exact (consolidation_run_preserves cref m steps store hsteps hinv).1

/-- Witness for idempotent_monthly_consolidation: two successful positive-
price check-ins in March 2024 starting from an empty store. -/
theorem idempotent_monthly_consolidation_witness :
    (monthInvoicesFor "7" ⟨2024, 3, 1⟩
      (consolidation_run ⟨"7", "Jane Doe"⟩
        [(⟨true, true, true, "101"⟩, ⟨2024, 3, 5⟩, 35),
         (⟨true, true, true, "102"⟩, ⟨2024, 3, 20⟩, 45)] [])).length ≤ 1 :=
  idempotent_monthly_consolidation ⟨"7", "Jane Doe"⟩ ⟨2024, 3, 1⟩
    [(⟨true, true, true, "101"⟩, ⟨2024, 3, 5⟩, 35),
     (⟨true, true, true, "102"⟩, ⟨2024, 3, 20⟩, 45)] [] (by decide) rfl

end QRBilling

